import Mathlib

/-!
# Verification of the JobPilot Technician Matching & Team-Composition Engine

Shallow embedding of the matching core of the JobPilot repository:

* `AirtableService.checkTechnicianAvailability` and
  `AirtableService.calculateMatchScore` (availability directory module);
* `ClaudeMatchingService.analyzeJobRequirements`, `rankTechnicians`,
  `generateMatchAnalysis`, `fallbackJobAnalysis`, `fallbackRanking`
  (team-based matching service), plus the older variant of
  `fallbackRanking` from the earlier revision of the matching service.

Conventions of the embedding:

* Dates (`new Date(...)` values) are modelled as integers (`Int`), with the
  source's `>=`/`<=` comparisons mapped to integer comparisons.
* JavaScript string operations are modelled on Lean `String`:
  `s.includes(t)` is `jsIncludes s t` (substring containment, the empty
  needle is contained in every string, as in JS), `s.toLowerCase()` is
  `jsToLower` (ASCII lowering; all strings involved are ASCII).
* The JS idiom `x || d` on possibly-absent values is modelled by
  `jsOrStr` / `jsOrStrOpt` / `jsOrInt` / `jsOrNat`, which also map the
  falsy values `""` and `0` to the default, as JS does.
* External services (the AI reasoning endpoint) are modelled as oracle
  parameters: an `AIRankOutcome` / `AIJobOutcome` value describes one
  behaviour of the external call (network/parse failure, structurally
  invalid reply, or a structurally valid reply with arbitrary contents),
  so theorems quantifying over these outcomes quantify over every
  behaviour of the external service.
* Code that can throw is modelled in `Except String`; a `try { } catch` is
  the corresponding `match` on the `Except` value.  Wall-clock timestamps
  (`new Date().toISOString()`) are irrelevant to every claim and are
  modelled as `""`.
-/

set_option autoImplicit false

namespace JobPilot

/-! ## JavaScript string primitives -/

/-- Is `needle` a leading segment of `hay`?  Helper for substring search. -/
def leadsWith : List Char → List Char → Bool
  | [], _ => true
  | _ :: _, [] => false
  | a :: as, b :: bs => a == b && leadsWith as bs

/-- Does `needle` occur contiguously inside `hay`?  (JS `String.prototype.includes`:
the empty needle occurs in every string.) -/
def occursIn (needle : List Char) : List Char → Bool
  | [] => leadsWith needle []
  | b :: bs => leadsWith needle (b :: bs) || occursIn needle bs

/-- JS `s.includes(needle)`. -/
def jsIncludes (s needle : String) : Bool :=
  occursIn needle.toList s.toList

/-- JS `s.toLowerCase()` (ASCII; every string in the engine is ASCII).
Implemented on the character list so that the kernel can evaluate it. -/
def jsToLower (s : String) : String := String.mk (s.data.map Char.toLower)

/-- JS `x || d` for an optional string: absent or `""` (falsy) gives `d`. -/
def jsOrStrOpt (x : Option String) (d : String) : String :=
  match x with
  | none => d
  | some s => if s = "" then d else s

/-- JS `x || d` for a present string: `""` (falsy) gives `d`. -/
def jsOrStr (x d : String) : String := if x = "" then d else x

/-- JS `x || d` for an optional number: absent, `NaN` or `0` (falsy) gives `d`. -/
def jsOrInt (x : Option Int) (d : Int) : Int :=
  match x with
  | none => d
  | some v => if v = 0 then d else v

/-- JS `x || d` for an optional count: absent or `0` gives `d`. -/
def jsOrNat (x : Option Nat) (d : Nat) : Nat :=
  match x with
  | none => d
  | some v => if v = 0 then d else v

/-! ## Airtable data model (`airtable.ts`) -/

/-- `AirtableRecord<T> = {id, fields, createdTime}`. -/
structure AirtableRecord (α : Type) where
  id : String
  fields : α
  createdTime : String
  deriving DecidableEq, Repr

/-- `TechnicianFields = {Name, Status, Certifications}` (the optional
"Availability Periods" linked-record field is never read by the engine and
is omitted). -/
structure TechnicianFields where
  name : String
  status : String
  certifications : List String
  deriving DecidableEq, Repr

/-- `AvailabilityFields = {Technician, "Period Type", "Start Date", "End Date"?, Reason?}`.
Dates are modelled as integers. -/
structure AvailabilityFields where
  technician : List String
  periodType : String
  startDate : Int
  endDate : Option Int
  reason : Option String
  deriving DecidableEq, Repr

/-- The `isInPeriod` test of `checkTechnicianAvailability`:
`jobDateTime >= startDate && (!endDate || jobDateTime <= endDate)`. -/
def periodContains (fields : AvailabilityFields) (jobDate : Int) : Bool :=
  decide (fields.startDate ≤ jobDate) &&
    (match fields.endDate with
     | none => true
     | some e => decide (jobDate ≤ e))

/-- The `for (const record of availability)` loop body of
`checkTechnicianAvailability`: `some b` models an early `return b`,
`none` models falling off the end of the loop. -/
def availabilityLoop (jobDate : Int) :
    List (AirtableRecord AvailabilityFields) → Option Bool
  | [] => none
  | record :: rest =>
    if periodContains record.fields jobDate then
      if record.fields.periodType = "Available" then some true
      else if record.fields.periodType = "Unavailable" ∨
              record.fields.periodType = "Booked" then some false
      else availabilityLoop jobDate rest
    else availabilityLoop jobDate rest

/-- `AirtableService.checkTechnicianAvailability(availability, jobDate)`.
After the loop the source returns `availability.length === 0`. -/
def checkTechnicianAvailability
    (availability : List (AirtableRecord AvailabilityFields)) (jobDate : Int) : Bool :=
  match availabilityLoop jobDate availability with
  | some b => b
  | none => availability.length == 0

/-! ## Deterministic scorer (`AirtableService.calculateMatchScore`) -/

/-- `certifications.some(c => c.toLowerCase().includes(needle))`. -/
def certAny (certs : List String) (needle : String) : Bool :=
  certs.any fun c => jsIncludes (jsToLower c) needle

/-- UT block: +35 for `ut level ii`/`ut-2`, else +25 for `ut level i`/`ut-1`/`ut`. -/
def utBonus (jobTypeLower : String) (certs : List String) : Int :=
  if jsIncludes jobTypeLower "ut" || jsIncludes jobTypeLower "ultrasonic" then
    if certAny certs "ut level ii" || certAny certs "ut-2" then 35
    else if certAny certs "ut level i" || certAny certs "ut-1" || certAny certs "ut" then 25
    else 0
  else 0

/-- RT block: +35 for `rt level ii`/`rt-2`, else +25 for `rt level i`/`rt-1`/`rt`. -/
def rtBonus (jobTypeLower : String) (certs : List String) : Int :=
  if jsIncludes jobTypeLower "rt" || jsIncludes jobTypeLower "radiograph" then
    if certAny certs "rt level ii" || certAny certs "rt-2" then 35
    else if certAny certs "rt level i" || certAny certs "rt-1" || certAny certs "rt" then 25
    else 0
  else 0

/-- MT block: +30 for any `mt` certification. -/
def mtBonus (jobTypeLower : String) (certs : List String) : Int :=
  if jsIncludes jobTypeLower "mt" || jsIncludes jobTypeLower "magnetic" then
    if certAny certs "mt" then 30 else 0
  else 0

/-- PT block: +30 for any `pt` certification. -/
def ptBonus (jobTypeLower : String) (certs : List String) : Int :=
  if jsIncludes jobTypeLower "pt" || jsIncludes jobTypeLower "penetrant" then
    if certAny certs "pt" then 30 else 0
  else 0

/-- VT block: +25 for any `vt` certification. -/
def vtBonus (jobTypeLower : String) (certs : List String) : Int :=
  if jsIncludes jobTypeLower "vt" || jsIncludes jobTypeLower "visual" then
    if certAny certs "vt" then 25 else 0
  else 0

/-- The `ndt_keywords` of the scorer. -/
def ndtKeywords : List String := ["ndt", "non-destructive", "testing", "inspection", "asnt"]

/-- General NDT experience bonus: +10. -/
def ndtBonus (certs : List String) : Int :=
  if ndtKeywords.any (fun keyword => certAny certs keyword) then 10 else 0

/-- Multiple-certifications (breadth) bonus: +15 / +10 / +5 at 4 / 3 / 2 certs. -/
def breadthBonus (certs : List String) : Int :=
  if 4 ≤ certs.length then 15
  else if 3 ≤ certs.length then 10
  else if 2 ≤ certs.length then 5
  else 0

/-- The `safety_keywords` of the scorer. -/
def safetyKeywords : List String :=
  ["rope", "access", "confined", "space", "safety", "osha", "cswip", "nace"]

/-- Safety-certification bonus: +12. -/
def safetyBonus (certs : List String) : Int :=
  if safetyKeywords.any (fun keyword => certAny certs keyword) then 12 else 0

/-- The `industry_keywords` of the scorer. -/
def industryKeywords : List String := ["aws", "asme", "api", "pipeline", "offshore", "subsea"]

/-- Industry-specific certification bonus: +8. -/
def industryBonus (certs : List String) : Int :=
  if industryKeywords.any (fun keyword => certAny certs keyword) then 8 else 0

/-- `AirtableService.calculateMatchScore(technician, jobType?)`.
`if (!jobType) return 50` fires for an absent and for an empty (falsy)
job type; otherwise the score starts at 35, accumulates the additive
bonuses and is capped by `Math.min(score, 100)`. -/
def calculateMatchScore (technician : TechnicianFields) (jobType : Option String) : Int :=
  match jobType with
  | none => 50
  | some jt =>
    if jt = "" then 50
    else
      let certifications := technician.certifications
      let jobTypeLower := jsToLower jt
      min (35 + utBonus jobTypeLower certifications + rtBonus jobTypeLower certifications
            + mtBonus jobTypeLower certifications + ptBonus jobTypeLower certifications
            + vtBonus jobTypeLower certifications + ndtBonus certifications
            + breadthBonus certifications + safetyBonus certifications
            + industryBonus certifications) 100

/-! ## Matching-service data model (`claude-matching.ts`) -/

/-- `JobDetails`.  `techsNeeded` is modelled as an optional count:
`Number(jobDetails.techsNeeded) || 1` maps an absent, non-numeric or zero
value to the default, which `jsTeamSize` reproduces. -/
structure JobDetails where
  location : String
  scheduledDate : String
  scheduledTime : String
  jobType : String
  subject : String
  bodyPlain : String
  techsNeeded : Option Nat
  deriving DecidableEq, Repr

/-- `const requiredTeamSize = Number(jobDetails.techsNeeded) || 1`. -/
def jsTeamSize (techsNeeded : Option Nat) : Nat := jsOrNat techsNeeded 1

/-- The `TechnicianData` shape the service builds from each candidate
(`{id, name, certifications, status, availability}`); the `availability`
component is only interpolated into the prompt text, never read by the
logic modelled here, and is omitted. -/
structure TechnicianData where
  id : String
  name : String
  certifications : List String
  status : String
  deriving DecidableEq, Repr

/-- One element of the `availableTechnicians` argument:
`{technician, availability, matchScore}`. -/
structure Candidate where
  technician : AirtableRecord TechnicianFields
  availability : List (AirtableRecord AvailabilityFields)
  matchScore : Int
  deriving DecidableEq, Repr

/-- The candidate with its `matchScore` field zeroed; used to state that a
function never reads `matchScore`. -/
def eraseMatchScore (c : Candidate) : Candidate := { c with matchScore := 0 }

/-- `TeamMember` (role kept as a string; the source coerces anything
outside `{Lead, Specialist, Support}` to `Support`). -/
structure TeamMember where
  technician : TechnicianData
  confidenceScore : Int
  role : String
  reasoning : List String
  availabilityStatus : String
  deriving DecidableEq, Repr

/-- `AlternativeTeam = {size, members, teamReasoning}`. -/
structure AlternativeTeam where
  size : Nat
  members : List TeamMember
  teamReasoning : String
  deriving DecidableEq, Repr

/-- The `{size, members, teamDynamics?, coordinationPlan?}` team shape. -/
structure TeamComposition where
  size : Nat
  members : List TeamMember
  teamDynamics : Option String
  coordinationPlan : Option String
  deriving DecidableEq, Repr

/-- Result shape of `rankTechnicians`: `{recommendedTeam, alternativeTeams}`. -/
structure RankResult where
  recommendedTeam : TeamComposition
  alternativeTeams : List AlternativeTeam
  deriving DecidableEq, Repr

/-- `AlternativeTechnician` (also the shape of `topRecommendation`). -/
structure AlternativeTechnician where
  technician : TechnicianData
  confidenceScore : Int
  reasoning : List String
  availabilityStatus : String
  deriving DecidableEq, Repr

/-- The `jobAnalysis` component (`complexity` kept as a string with values
`"simple" | "moderate" | "complex"`). -/
structure JobAnalysis where
  requiredSkills : List String
  complexity : String
  estimatedDuration : String
  recommendations : List String
  deriving DecidableEq, Repr

/-- `MatchAnalysis`, the terminal artifact. -/
structure MatchAnalysis where
  teamComposition : TeamComposition
  alternatives : List AlternativeTechnician
  alternativeTeams : Option (List AlternativeTeam)
  jobAnalysis : JobAnalysis
  analysisTimestamp : String
  fallbackUsed : Bool
  topRecommendation : AlternativeTechnician
  deriving DecidableEq, Repr

/-! ## Oracle model of the external AI reasoning service -/

/-- One member object of the JSON reply to the ranking prompt, with each
field possibly absent or junk, as the source defends against. -/
structure RawMember where
  name : String
  id : Option String
  role : String
  confidenceScore : Option Int
  reasoning : Option (List String)
  availabilityStatus : Option String
  deriving DecidableEq, Repr

/-- The `recommendedTeam` object of the reply. -/
structure RawTeam where
  members : List RawMember
  teamDynamics : Option String
  coordinationPlan : Option String
  deriving DecidableEq, Repr

/-- One `alternativeTeams[]` entry of the reply. -/
structure RawAltTeam where
  size : Option Nat
  members : List RawMember
  teamReasoning : Option String
  deriving DecidableEq, Repr

/-- A structurally valid parsed reply to the ranking prompt. -/
structure TeamResponse where
  recommendedTeam : RawTeam
  alternativeTeams : List RawAltTeam
  deriving DecidableEq, Repr

/-- One behaviour of the external AI call inside `rankTechnicians`:
`failure` covers a network error, a non-2xx status, a non-text content
block or a non-JSON body (everything `throw`n inside the `try`);
`invalidStructure` covers a parsed reply without `recommendedTeam` or
whose `members` is not an array; `success` carries a structurally valid
reply with arbitrary contents. -/
inductive AIRankOutcome where
  | failure
  | invalidStructure
  | success (reply : TeamResponse)
  deriving DecidableEq, Repr

/-- One behaviour of the external AI call inside `analyzeJobRequirements`
(`failure` as above; `success` carries the loosely-typed parsed fields). -/
inductive AIJobOutcome where
  | failure
  | success (requiredSkills : Option (List String)) (complexity : Option String)
      (estimatedDuration : Option String) (recommendations : Option (List String))
  deriving DecidableEq, Repr

/-! ## Job requirement analysis -/

/-- `ClaudeMatchingService.fallbackJobAnalysis(jobDetails)`. -/
def fallbackJobAnalysis (jd : JobDetails) : JobAnalysis :=
  let jobType := jsToLower jd.jobType
  let description := jsToLower jd.bodyPlain
  let requiredSkills :=
    (if jsIncludes jobType "ut" || jsIncludes description "ultrasonic" then
      ["UT Level I", "UT Level II"] else [])
    ++ (if jsIncludes jobType "rt" || jsIncludes description "radiograph" then
      ["RT Level I", "RT Level II"] else [])
    ++ (if jsIncludes jobType "mt" || jsIncludes description "magnetic" then
      ["MT Level I"] else [])
    ++ (if jsIncludes description "rope" || jsIncludes description "access" then
      ["Rope Access"] else [])
    ++ (if jsIncludes description "confined" || jsIncludes description "space" then
      ["Confined Space"] else [])
  let complexity :=
    if 3 ≤ requiredSkills.length then "complex"
    else if requiredSkills.length ≤ 1 then "simple"
    else "moderate"
  { requiredSkills := requiredSkills
    complexity := complexity
    estimatedDuration :=
      if complexity = "simple" then "2-4 hours"
      else if complexity = "complex" then "Full day"
      else "Half day"
    recommendations :=
      ["Verify technician certifications are current",
       "Confirm equipment availability",
       "Review safety protocols for location"] }

/-- `ClaudeMatchingService.analyzeJobRequirements(jobDetails)`: unconfigured
or failed calls fall back; a successful reply is defaulted field by field.
This function never throws. -/
def analyzeJobRequirements (isConfigured : Bool) (jd : JobDetails)
    (ai : AIJobOutcome) : JobAnalysis :=
  if !isConfigured then fallbackJobAnalysis jd
  else
    match ai with
    | .failure => fallbackJobAnalysis jd
    | .success requiredSkills complexity estimatedDuration recommendations =>
      { requiredSkills := requiredSkills.getD []
        complexity := jsOrStrOpt complexity "moderate"
        estimatedDuration := jsOrStrOpt estimatedDuration "Half day"
        recommendations := recommendations.getD [] }

/-! ## Deterministic fallback ranking (`ClaudeMatchingService.fallbackRanking`) -/

/-- The per-candidate score of `fallbackRanking`: base 50, +30 for a `ut`
certification on a `ut` job, +30 for `rt`, +10 when any availability
record has `Period Type = "Available"`. -/
def fallbackScoreRaw (jobType : String) (certifications : List String)
    (availability : List (AirtableRecord AvailabilityFields)) : Int :=
  50
  + (if jsIncludes jobType "ut" &&
        certifications.any (fun c => jsIncludes (jsToLower c) "ut") then 30 else 0)
  + (if jsIncludes jobType "rt" &&
        certifications.any (fun c => jsIncludes (jsToLower c) "rt") then 30 else 0)
  + (if availability.any (fun a => a.fields.periodType = "Available") then 10 else 0)

/-- The member object `fallbackRanking` builds for one candidate (before
role re-assignment); `confidenceScore = Math.min(100, Math.max(0, score))`. -/
def fallbackMember (jd : JobDetails) (t : Candidate) : TeamMember :=
  let jobType := jsToLower jd.jobType
  let certifications := t.technician.fields.certifications
  let score := fallbackScoreRaw jobType certifications t.availability
  let jobLabel := jsOrStr jd.jobType "job"
  let reasoning0 := [s!"Basic match for {jobLabel}"]
  let certsJoined := String.intercalate ", " certifications
  let reasoning1 :=
    if 0 < certifications.length then reasoning0 ++ [s!"Has certifications: {certsJoined}"]
    else reasoning0
  let reasoning2 :=
    if 0 < t.availability.length then reasoning1 ++ ["Has availability records"]
    else reasoning1
  { technician :=
      { id := t.technician.id
        name := t.technician.fields.name
        certifications := certifications
        status := t.technician.fields.status }
    confidenceScore := min 100 (max 0 score)
    role := "Support"
    reasoning := reasoning2
    availabilityStatus := "Good" }

/-- `Array.prototype.map((x, index) => ...)`: map with the element index. -/
def jsMapIndexedFrom {α β : Type} (f : Nat → α → β) : Nat → List α → List β
  | _, [] => []
  | i, x :: xs => f i x :: jsMapIndexedFrom f (i + 1) xs

/-- `jsMapIndexedFrom` starting at index 0. -/
def jsMapIndexed {α β : Type} (f : Nat → α → β) (l : List α) : List β :=
  jsMapIndexedFrom f 0 l

/-- Insertion step of the stable descending sort by `confidenceScore`. -/
def insertByScore (m : TeamMember) : List TeamMember → List TeamMember
  | [] => [m]
  | x :: xs =>
    if x.confidenceScore ≤ m.confidenceScore then m :: x :: xs
    else x :: insertByScore m xs

/-- `.sort((a, b) => b.confidenceScore - a.confidenceScore)`: stable sort,
descending by `confidenceScore` (JS `Array.prototype.sort` is stable). -/
def sortByScoreDesc : List TeamMember → List TeamMember
  | [] => []
  | x :: xs => insertByScore x (sortByScoreDesc xs)

/-- All candidate members, scored and sorted (the `allMembers` constant). -/
def fallbackAllMembers (jd : JobDetails) (cands : List Candidate) : List TeamMember :=
  sortByScoreDesc (cands.map (fallbackMember jd))

/-- Role re-assignment for the recommended team:
`index === 0 && requiredTeamSize > 1 ? "Lead" : score > 70 && requiredTeamSize > 1 ? "Specialist" : "Support"`. -/
def recommendedRole (requiredTeamSize : Nat) (index : Nat) (member : TeamMember) : TeamMember :=
  { member with
      role :=
        if index = 0 ∧ 1 < requiredTeamSize then "Lead"
        else if 70 < member.confidenceScore ∧ 1 < requiredTeamSize then "Specialist"
        else "Support" }

/-- The `recommendedMembers` constant: top `requiredTeamSize` of the sorted
members, re-assigned roles. -/
def fallbackRecommendedMembers (jd : JobDetails) (cands : List Candidate) : List TeamMember :=
  jsMapIndexed (recommendedRole (jsTeamSize jd.techsNeeded))
    ((fallbackAllMembers jd cands).take (jsTeamSize jd.techsNeeded))

/-- Role re-assignment inside an alternative team:
`index === 0 && requiredTeamSize > 1 ? "Lead" : "Support"`. -/
def altRole (requiredTeamSize : Nat) (index : Nat) (member : TeamMember) : TeamMember :=
  { member with
      role := if index = 0 ∧ 1 < requiredTeamSize then "Lead" else "Support" }

/-- The alternative-team loop of `fallbackRanking`: for
`i < Math.min(2, allMembers.length - requiredTeamSize)` the window
`allMembers.slice(i + 1, i + 1 + requiredTeamSize)` becomes an alternative
team when it is full-sized. -/
def fallbackAlternativeTeams (allMembers : List TeamMember) (requiredTeamSize : Nat) :
    List AlternativeTeam :=
  if requiredTeamSize < allMembers.length then
    (List.range (min 2 (allMembers.length - requiredTeamSize))).filterMap fun i =>
      let altMembers :=
        jsMapIndexed (altRole requiredTeamSize)
          (((allMembers.drop (i + 1)).take requiredTeamSize))
      if altMembers.length = requiredTeamSize then
        -- `altMembers[0]` is only read here, where the guard has already
        -- forced `altMembers.length = requiredTeamSize ≥ 1`.
        let leadName :=
          match altMembers with
          | [] => ""
          | m :: _ => m.technician.name
        let k := i + 1
        some { size := requiredTeamSize
               members := altMembers
               teamReasoning := s!"Alternative {k}: Backup team with {leadName} leading" }
      else none
  else []

/-- The `teamDynamics`/`coordinationPlan` strings of `fallbackRanking`.
When `requiredTeamSize > 1` the source reads
`recommendedMembers[0].technician.name`, which throws a `TypeError` on an
empty team; the `Except.error` value models that exception. -/
def fallbackTeamStrings (requiredTeamSize : Nat) (recommendedMembers : List TeamMember) :
    Except String (Option String × Option String) :=
  if 1 < requiredTeamSize then
    match recommendedMembers with
    | [] => Except.error "TypeError: recommendedMembers[0] is undefined"
    | m :: _ =>
      let leadName := m.technician.name
      let roles := String.intercalate ", "
        (recommendedMembers.map fun mm =>
          let n := mm.technician.name
          let r := mm.role
          s!"{n} ({r})")
      Except.ok
        (some s!"Team of {requiredTeamSize} with {leadName} as lead technician",
         some s!"{leadName} (Lead) coordinates team. Roles: {roles}")
  else Except.ok (none, none)

/-- `ClaudeMatchingService.fallbackRanking(jobDetails, availableTechnicians)`
(team-based version).  Note the candidates' incoming `matchScore` field is
never read: the score is recomputed from base 50. -/
def fallbackRanking (jd : JobDetails) (cands : List Candidate) :
    Except String RankResult :=
  let requiredTeamSize := jsTeamSize jd.techsNeeded
  let allMembers := fallbackAllMembers jd cands
  let recommendedMembers := fallbackRecommendedMembers jd cands
  let alternativeTeams := fallbackAlternativeTeams allMembers requiredTeamSize
  match fallbackTeamStrings requiredTeamSize recommendedMembers with
  | Except.error e => Except.error e
  | Except.ok (teamDynamics, coordinationPlan) =>
    Except.ok
      { recommendedTeam :=
          { size := recommendedMembers.length
            members := recommendedMembers
            teamDynamics := teamDynamics
            coordinationPlan := coordinationPlan }
        alternativeTeams := alternativeTeams }

/-! ## AI reply reconciliation (`processMembers` inside `rankTechnicians`) -/

/-- The `techniciansData` entry built from one candidate (the
`availability` component, used only in the prompt text, is omitted). -/
def candToTechData (c : Candidate) : TechnicianData :=
  { id := c.technician.id
    name := c.technician.fields.name
    certifications := c.technician.fields.certifications
    status := c.technician.fields.status }

/-- The predicate of the `techniciansData.find(...)` reconciliation:
`t.name.toLowerCase() === (member.name || '').toLowerCase() || t.id === member.id
|| t.name.includes(member.name) || (member.name || '').includes(t.name)`.
With `member.name` a (possibly empty) string, `member.name || ''` is
`member.name` itself; `t.id === member.id` is false when `id` is absent. -/
def memberMatches (member : RawMember) (t : TechnicianData) : Bool :=
  jsToLower t.name == jsToLower member.name
  || (match member.id with
      | some i => t.id == i
      | none => false)
  || jsIncludes t.name member.name
  || jsIncludes member.name t.name

/-- `validRoles = ["Lead", "Specialist", "Support"]`. -/
def validRoles : List String := ["Lead", "Specialist", "Support"]

/-- One member of `processMembers`: `find` the first candidate in list
order satisfying `memberMatches`; on a miss, build the `Unknown` sentinel
member keeping the AI's own score and reasoning. -/
def processMember (jd : JobDetails) (techniciansData : List TechnicianData)
    (member : RawMember) : TeamMember :=
  let jt := jd.jobType
  match techniciansData.find? (memberMatches member) with
  | none =>
    { technician :=
        { id := jsOrStrOpt member.id "unknown"
          name := jsOrStr member.name "Unknown Technician"
          certifications := []
          status := "Unknown" }
      confidenceScore := max 0 (min 100 (jsOrInt member.confidenceScore 50))
      role := if validRoles.contains member.role then member.role else "Support"
      reasoning := member.reasoning.getD [s!"Matched for {jt} job"]
      availabilityStatus := jsOrStrOpt member.availabilityStatus "Unknown" }
  | some technicianData =>
    { technician := technicianData
      confidenceScore := max 0 (min 100 (jsOrInt member.confidenceScore 50))
      role := if validRoles.contains member.role then member.role else "Support"
      reasoning := member.reasoning.getD [s!"Matched for {jt} job"]
      availabilityStatus := jsOrStrOpt member.availabilityStatus "Good" }

/-- `processMembers(members)`. -/
def processMembers (jd : JobDetails) (techniciansData : List TechnicianData)
    (members : List RawMember) : List TeamMember :=
  members.map (processMember jd techniciansData)

/-! ## `rankTechnicians` and `generateMatchAnalysis` (team-based version) -/

/-- `ClaudeMatchingService.rankTechnicians(jobDetails, availableTechnicians)`.
Unconfigured service or empty candidate list short-circuits to the
fallback (outside the `try`, so a fallback `TypeError` propagates); a
`failure` or `invalidStructure` behaviour of the external call is caught
inside the `try` and delegates to the fallback; a structurally valid
reply is reconciled member by member.  The team-size mismatch between the
reply and `techsNeeded` is only logged, never corrected. -/
def rankTechnicians (isConfigured : Bool) (jd : JobDetails) (cands : List Candidate)
    (ai : AIRankOutcome) : Except String RankResult :=
  if !isConfigured || cands.length == 0 then fallbackRanking jd cands
  else
    match ai with
    | .failure => fallbackRanking jd cands
    | .invalidStructure => fallbackRanking jd cands
    | .success reply =>
      let techniciansData := cands.map candToTechData
      let recommendedTeamMembers := processMembers jd techniciansData reply.recommendedTeam.members
      let alternativeTeams : List AlternativeTeam := reply.alternativeTeams.map fun altTeam =>
        { size := jsOrNat altTeam.size altTeam.members.length
          members := processMembers jd techniciansData altTeam.members
          teamReasoning := jsOrStrOpt altTeam.teamReasoning "Alternative team composition" }
      Except.ok
        { recommendedTeam :=
            { size := recommendedTeamMembers.length
              members := recommendedTeamMembers
              teamDynamics := reply.recommendedTeam.teamDynamics
              coordinationPlan := reply.recommendedTeam.coordinationPlan }
          alternativeTeams := alternativeTeams }

/-- The "basic fallback analysis" returned by the outermost `catch` of
`generateMatchAnalysis`: empty team, sentinel `topRecommendation`,
`complexity: "moderate"`, `recommendations: ["Manual review required"]`,
`fallbackUsed: true`. -/
def basicFallbackAnalysis : MatchAnalysis :=
  { teamComposition :=
      { size := 0, members := [], teamDynamics := none, coordinationPlan := none }
    topRecommendation :=
      { technician :=
          { id := "unknown", name := "No match available",
            certifications := [], status := "Active" }
        confidenceScore := 0
        reasoning := ["Analysis failed - please check job requirements"]
        availabilityStatus := "Unknown" }
    alternatives := []
    alternativeTeams := none
    jobAnalysis :=
      { complexity := "moderate", requiredSkills := [],
        estimatedDuration := "Unknown", recommendations := ["Manual review required"] }
    analysisTimestamp := ""
    fallbackUsed := true }

/-- The `try` block of `generateMatchAnalysis`: job analysis and team
ranking (joined `Promise.all`), the explicit
`throw new Error("No technicians available for analysis")` on an empty
team, then assembly of the `MatchAnalysis`.  `fallbackUsed` is computed
as `!this.isConfigured` before the `try`. -/
def generateMatchAnalysisE (isConfigured : Bool) (jd : JobDetails)
    (cands : List Candidate) (aiJob : AIJobOutcome) (aiRank : AIRankOutcome) :
    Except String MatchAnalysis :=
  let jobAnalysis := analyzeJobRequirements isConfigured jd aiJob
  match rankTechnicians isConfigured jd cands aiRank with
  | Except.error e => Except.error e
  | Except.ok teamRanking =>
    match teamRanking.recommendedTeam.members with
    | [] => Except.error "No technicians available for analysis"
    | m0 :: _ =>
      let alternatives : List AlternativeTechnician :=
        (teamRanking.alternativeTeams.map fun team =>
          team.members.map fun member =>
            ({ technician := member.technician
               confidenceScore := member.confidenceScore
               reasoning := member.reasoning
               availabilityStatus := member.availabilityStatus } :
              AlternativeTechnician)).flatten
      Except.ok
        { teamComposition := teamRanking.recommendedTeam
          topRecommendation :=
            { technician := m0.technician
              confidenceScore := m0.confidenceScore
              reasoning := m0.reasoning
              availabilityStatus := m0.availabilityStatus }
          alternatives := alternatives
          alternativeTeams := some teamRanking.alternativeTeams
          jobAnalysis := jobAnalysis
          analysisTimestamp := ""
          fallbackUsed := !isConfigured }

/-- `ClaudeMatchingService.generateMatchAnalysis(jobDetails, availableTechnicians)`:
the `try` body with its outermost `catch`, which turns every error into
the basic fallback analysis.  Total by construction: no exception escapes. -/
def generateMatchAnalysis (isConfigured : Bool) (jd : JobDetails)
    (cands : List Candidate) (aiJob : AIJobOutcome) (aiRank : AIRankOutcome) :
    MatchAnalysis :=
  match generateMatchAnalysisE isConfigured jd cands aiJob aiRank with
  | Except.ok analysis => analysis
  | Except.error _ => basicFallbackAnalysis

/-! ## The older revision's `fallbackRanking` (second version)

The earlier revision of the matching service keeps the same per-candidate
scoring (base 50, +30 `ut`, +30 `rt`, +10 availability) but returns the
flat member list, assigns roles from the pre-sort index against the raw
(unclamped) score, and reads the certification list from the record's
"Technician Certifications" field (modelled by the same `certifications`
component). -/

/-- One member of the older `fallbackRanking`. -/
def fallbackMemberV2 (jd : JobDetails) (index : Nat) (t : Candidate) : TeamMember :=
  let jobType := jsToLower jd.jobType
  let certifications := t.technician.fields.certifications
  let score := fallbackScoreRaw jobType certifications t.availability
  let requiredTeamSize := jsTeamSize jd.techsNeeded
  let jt := jd.jobType
  let reasoning0 := [s!"Basic match for {jt} job"]
  let certsJoined := String.intercalate ", " certifications
  let reasoning1 :=
    if 0 < certifications.length then reasoning0 ++ [s!"Has certifications: {certsJoined}"]
    else reasoning0
  let reasoning2 :=
    if 0 < t.availability.length then reasoning1 ++ ["Has availability records"]
    else reasoning1
  { technician :=
      { id := t.technician.id
        name := t.technician.fields.name
        certifications := certifications
        status := t.technician.fields.status }
    confidenceScore := min 100 (max 0 score)
    role :=
      if 1 < requiredTeamSize then
        if index = 0 then "Lead"
        else if 70 < score then "Specialist"
        else "Support"
      else "Support"
    reasoning := reasoning2
    availabilityStatus := "Good" }

/-- The older `ClaudeMatchingService.fallbackRanking`: map with index,
then stable sort descending by `confidenceScore`. -/
def fallbackRankingV2 (jd : JobDetails) (cands : List Candidate) : List TeamMember :=
  sortByScoreDesc (jsMapIndexed (fun index t => fallbackMemberV2 jd index t) cands)

/-! ## Discipline-match predicates (assembled from the scorer's keyword tests)

Used to state the monotonicity claim: a certification "matches the
requested discipline" when it satisfies one of the certification tests of
a discipline block that the requested job type fires. -/

/-- Does certification `c` match the discipline requested by `jobType`,
according to the keyword tests of `calculateMatchScore`? -/
def certMatchesRequestedDiscipline (jobType : String) (c : String) : Bool :=
  let j := jsToLower jobType
  let cl := jsToLower c
  ((jsIncludes j "ut" || jsIncludes j "ultrasonic") &&
    (jsIncludes cl "ut level ii" || jsIncludes cl "ut-2" || jsIncludes cl "ut level i"
      || jsIncludes cl "ut-1" || jsIncludes cl "ut"))
  || ((jsIncludes j "rt" || jsIncludes j "radiograph") &&
    (jsIncludes cl "rt level ii" || jsIncludes cl "rt-2" || jsIncludes cl "rt level i"
      || jsIncludes cl "rt-1" || jsIncludes cl "rt"))
  || ((jsIncludes j "mt" || jsIncludes j "magnetic") && jsIncludes cl "mt")
  || ((jsIncludes j "pt" || jsIncludes j "penetrant") && jsIncludes cl "pt")
  || ((jsIncludes j "vt" || jsIncludes j "visual") && jsIncludes cl "vt")

/-- Does the certification list hold a top-tier certification for the
discipline requested by `jobType` (the `+35`/`+30`/`+25` top test of the
fired block)? -/
def hasTopTierMatch (jobType : String) (certs : List String) : Bool :=
  let j := jsToLower jobType
  ((jsIncludes j "ut" || jsIncludes j "ultrasonic") &&
    (certAny certs "ut level ii" || certAny certs "ut-2"))
  || ((jsIncludes j "rt" || jsIncludes j "radiograph") &&
    (certAny certs "rt level ii" || certAny certs "rt-2"))
  || ((jsIncludes j "mt" || jsIncludes j "magnetic") && certAny certs "mt")
  || ((jsIncludes j "pt" || jsIncludes j "penetrant") && certAny certs "pt")
  || ((jsIncludes j "vt" || jsIncludes j "visual") && certAny certs "vt")

/-! ## Concrete fixtures (used by counterexamples and witnesses) -/

/-- A UT job with no explicit team size. -/
def jdEx : JobDetails :=
  { location := "Site A", scheduledDate := "2025-01-15", scheduledTime := "09:00",
    jobType := "UT", subject := "UT inspection", bodyPlain := "Ultrasonic testing",
    techsNeeded := none }

/-- The same job requesting two technicians. -/
def jdTwoTechs : JobDetails := { jdEx with techsNeeded := some 2 }

/-- A job with every free-text field empty. -/
def jdBlank : JobDetails :=
  { location := "", scheduledDate := "", scheduledTime := "",
    jobType := "", subject := "", bodyPlain := "", techsNeeded := none }

/-- Candidate with a top UT certification. -/
def candAlice : Candidate :=
  { technician := ⟨"t1", ⟨"Alice", "Active", ["UT Level II"]⟩, ""⟩,
    availability := [], matchScore := 70 }

/-- Candidate with no certifications. -/
def candBob : Candidate :=
  { technician := ⟨"t2", ⟨"Bob", "Active", []⟩, ""⟩,
    availability := [], matchScore := 50 }

/-- Candidate with an RT certification. -/
def candCara : Candidate :=
  { technician := ⟨"t3", ⟨"Cara", "Active", ["RT Level I"]⟩, ""⟩,
    availability := [], matchScore := 60 }

/-- Bare candidate for the fallback-ranking witness. -/
def candBare : Candidate :=
  { technician := ⟨"t1", ⟨"A", "Active", []⟩, ""⟩,
    availability := [], matchScore := 7 }

/-- `candBare` with a different `matchScore`. -/
def candBareZero : Candidate := { candBare with matchScore := 0 }

/-- The fallback ranking result on `jdBlank` and `[candBare]`. -/
def frBare : RankResult :=
  { recommendedTeam :=
      { size := 1
        members :=
          [{ technician := ⟨"t1", "A", [], "Active"⟩
             confidenceScore := 50
             role := "Support"
             reasoning := ["Basic match for job"]
             availabilityStatus := "Good" }]
        teamDynamics := none
        coordinationPlan := none }
    alternativeTeams := [] }

/-- Known technician "Jan" (a proper substring of "Jane Doe"). -/
def techJan : TechnicianData := ⟨"t1", "Jan", [], "Active"⟩

/-- Known technician "Jane Doe". -/
def techJane : TechnicianData := ⟨"t2", "Jane Doe", [], "Active"⟩

/-- AI reply member named exactly "Jane Doe". -/
def rawJane : RawMember := ⟨"Jane Doe", none, "Support", none, none, none⟩

/-- AI reply member named "jane doe" (case difference only). -/
def rawJaneLower : RawMember := ⟨"jane doe", none, "Support", none, none, none⟩

/-- AI reply member named "Doe" (substring of the known name). -/
def rawDoe : RawMember := ⟨"Doe", none, "Support", none, none, none⟩

/-- AI reply member whose name matches no known candidate. -/
def rawZedOne : RawMember := ⟨"Zed One", none, "Lead", some 80, none, none⟩

/-- Second AI reply member whose name matches no known candidate. -/
def rawZedTwo : RawMember := ⟨"Zed Two", none, "Support", some 60, none, none⟩

/-- A structurally valid AI reply carrying two members. -/
def replyTwo : TeamResponse := ⟨⟨[rawZedOne, rawZedTwo], none, none⟩, []⟩

/-- Availability record: Unavailable over `[10, 20]`. -/
def recUnavailLater : AirtableRecord AvailabilityFields :=
  ⟨"r1", ⟨["t1"], "Unavailable", 10, some 20, none⟩, ""⟩

/-- Availability record: Unavailable on day 0 exactly. -/
def recUnavailNow : AirtableRecord AvailabilityFields :=
  ⟨"r2", ⟨["t1"], "Unavailable", 0, some 0, none⟩, ""⟩

/-- Availability record: Available on day 0 exactly. -/
def recAvailNow : AirtableRecord AvailabilityFields :=
  ⟨"r3", ⟨["t1"], "Available", 0, some 0, none⟩, ""⟩

/-! # Lemmas and claim theorems -/

/-! ## Availability resolution (claims C4 and C5) -/

/-- If no record's period contains the job date, the loop falls through. -/
theorem availabilityLoop_eq_none {availability : List (AirtableRecord AvailabilityFields)}
    {jobDate : Int} (h : ∀ r ∈ availability, periodContains r.fields jobDate = false) :
    availabilityLoop jobDate availability = none := by
  induction availability with
  | nil => rfl
  | cons r rest ih =>
    have hr := h r (List.mem_cons_self _ _)
    simpa [availabilityLoop, hr] using ih fun x hx => h x (List.mem_cons_of_mem _ hx)

/-- If an "Available" record containing the date follows only records that
either do not contain the date or are neither "Unavailable" nor "Booked",
the loop returns `some true`. -/
theorem availabilityLoop_prefix_available (jobDate : Int)
    (p : AirtableRecord AvailabilityFields)
    (hp : periodContains p.fields jobDate = true)
    (hav : p.fields.periodType = "Available") :
    ∀ (pre post : List (AirtableRecord AvailabilityFields)),
      (∀ q ∈ pre, periodContains q.fields jobDate = true →
        q.fields.periodType ≠ "Unavailable" ∧ q.fields.periodType ≠ "Booked") →
      availabilityLoop jobDate (pre ++ p :: post) = some true := by
  intro pre
  induction pre with
  | nil => intro post _; simp [availabilityLoop, hp, hav]
  | cons q rest ih =>
    intro post hpre
    have htail := fun x hx => hpre x (List.mem_cons_of_mem _ hx)
    by_cases hq : periodContains q.fields jobDate = true
    · obtain ⟨h1, h2⟩ := hpre q (List.mem_cons_self _ _) hq
      by_cases hqa : q.fields.periodType = "Available"
      · simp [availabilityLoop, hq, hqa]
      · simpa [availabilityLoop, hq, hqa, h1, h2] using ih post htail
    · simp only [Bool.not_eq_true] at hq
      simpa [availabilityLoop, hq] using ih post htail

/-- C4, as frozen, is false: a technician whose (non-empty) availability
list has no period containing the job date is reported unavailable.  Here
the single record `{Unavailable, [10, 20]}` does not contain day 0, yet
the check returns `false`, where the claim demands `true`. -/
theorem claim4_counterexample :
    periodContains recUnavailLater.fields 0 = false ∧
    checkTechnicianAvailability [recUnavailLater] 0 = false := by decide

/-- C4 (amended): when no period's `[startDate, endDate]` interval contains
the job date, the availability check returns `availability.length === 0`:
`true` exactly when the technician has zero availability records (so a
record-less technician is available on any date), and `false` for a
non-empty list with no matching period. -/
theorem claim4_amended (availability : List (AirtableRecord AvailabilityFields))
    (jobDate : Int)
    (h : ∀ r ∈ availability, periodContains r.fields jobDate = false) :
    checkTechnicianAvailability availability jobDate = availability.isEmpty := by
  unfold checkTechnicianAvailability
  rw [availabilityLoop_eq_none h]
  cases availability <;> simp

/-- Witness for `claim4_amended`: a technician with zero availability
records is available on day 0. -/
theorem claim4_witness :
    checkTechnicianAvailability [] 0 =
      List.isEmpty ([] : List (AirtableRecord AvailabilityFields)) :=
  claim4_amended [] 0 (by simp)

/-- C5, as frozen, is false: the loop returns on the first period (in list
order) containing the date, so an "Unavailable" period that both precedes
the "Available" one and contains the date makes the check return `false`
even though a matching "Available" period exists in the list. -/
theorem claim5_counterexample :
    recAvailNow ∈ [recUnavailNow, recAvailNow] ∧
    periodContains recAvailNow.fields 0 = true ∧
    recAvailNow.fields.periodType = "Available" ∧
    checkTechnicianAvailability [recUnavailNow, recAvailNow] 0 = false := by decide

/-- C5 (amended): an "Available" period containing the job date makes the
check return `true` provided every *earlier* period in list order either
does not contain the date or is neither "Unavailable" nor "Booked" (the
source's documented first-match tie-break).  In particular other periods
that do not contain the date never deny availability. -/
theorem claim5_amended (pre post : List (AirtableRecord AvailabilityFields))
    (p : AirtableRecord AvailabilityFields) (jobDate : Int)
    (hp : periodContains p.fields jobDate = true)
    (hav : p.fields.periodType = "Available")
    (hpre : ∀ q ∈ pre, periodContains q.fields jobDate = true →
      q.fields.periodType ≠ "Unavailable" ∧ q.fields.periodType ≠ "Booked") :
    checkTechnicianAvailability (pre ++ p :: post) jobDate = true := by
  unfold checkTechnicianAvailability
  rw [availabilityLoop_prefix_available jobDate p hp hav pre post hpre]

/-- Witness for `claim5_amended`: the spec's own scenario — a period
`{Available, start = 0, end = 0}` makes the technician available on day 0
even though `{Unavailable, start = 10, end = 20}` exists later in the list
(and, symmetrically, an unrelated later period never interferes). -/
theorem claim5_witness :
    checkTechnicianAvailability ([] ++ recAvailNow :: [recUnavailLater]) 0 = true :=
  claim5_amended [] [recUnavailLater] recAvailNow 0 (by decide) (by decide)
    (by intro q hq; simp at hq)

/-! ## Deterministic scorer bounds and monotonicity (claims C7, C8, C9) -/

theorem utBonus_bounds (j : String) (c : List String) :
    0 ≤ utBonus j c ∧ utBonus j c ≤ 35 := by
  unfold utBonus; split_ifs <;> omega

theorem rtBonus_bounds (j : String) (c : List String) :
    0 ≤ rtBonus j c ∧ rtBonus j c ≤ 35 := by
  unfold rtBonus; split_ifs <;> omega

theorem mtBonus_bounds (j : String) (c : List String) :
    0 ≤ mtBonus j c ∧ mtBonus j c ≤ 30 := by
  unfold mtBonus; split_ifs <;> omega

theorem ptBonus_bounds (j : String) (c : List String) :
    0 ≤ ptBonus j c ∧ ptBonus j c ≤ 30 := by
  unfold ptBonus; split_ifs <;> omega

theorem vtBonus_bounds (j : String) (c : List String) :
    0 ≤ vtBonus j c ∧ vtBonus j c ≤ 25 := by
  unfold vtBonus; split_ifs <;> omega

theorem ndtBonus_bounds (c : List String) : 0 ≤ ndtBonus c ∧ ndtBonus c ≤ 10 := by
  unfold ndtBonus; split_ifs <;> omega

theorem breadthBonus_bounds (c : List String) : 0 ≤ breadthBonus c ∧ breadthBonus c ≤ 15 := by
  unfold breadthBonus; split_ifs <;> omega

theorem safetyBonus_bounds (c : List String) : 0 ≤ safetyBonus c ∧ safetyBonus c ≤ 12 := by
  unfold safetyBonus; split_ifs <;> omega

theorem industryBonus_bounds (c : List String) : 0 ≤ industryBonus c ∧ industryBonus c ≤ 8 := by
  unfold industryBonus; split_ifs <;> omega

/-- C7: for every technician (any certification list) and every job type,
including an absent one, the deterministic scorer stays within `[0, 100]`. -/
theorem claim7 (technician : TechnicianFields) (jobType : Option String) :
    0 ≤ calculateMatchScore technician jobType ∧
      calculateMatchScore technician jobType ≤ 100 := by
  cases jobType with
  | none => simp [calculateMatchScore]
  | some jt =>
    by_cases hjt : jt = ""
    · simp [calculateMatchScore, hjt]
    · have h1 := utBonus_bounds (jsToLower jt) technician.certifications
      have h2 := rtBonus_bounds (jsToLower jt) technician.certifications
      have h3 := mtBonus_bounds (jsToLower jt) technician.certifications
      have h4 := ptBonus_bounds (jsToLower jt) technician.certifications
      have h5 := vtBonus_bounds (jsToLower jt) technician.certifications
      have h6 := ndtBonus_bounds technician.certifications
      have h7 := breadthBonus_bounds technician.certifications
      have h8 := safetyBonus_bounds technician.certifications
      have h9 := industryBonus_bounds technician.certifications
      simp only [calculateMatchScore, hjt, if_false]
      omega

/-- C8: with job type "UT", the certification list `["UT Level II"]` scores
exactly `35 + 35 = 70`, the empty list scores exactly the base 35, and the
neutral 50 appears only when the job type is absent. -/
theorem claim8 :
    calculateMatchScore ⟨"Alice", "Active", ["UT Level II"]⟩ (some "UT") = 70 ∧
    calculateMatchScore ⟨"Bob", "Active", []⟩ (some "UT") = 35 ∧
    calculateMatchScore ⟨"Bob", "Active", []⟩ none = 50 := by decide

theorem certAny_mono {l1 l2 : List String} (h : List.Sublist l1 l2) (needle : String)
    (hc : certAny l1 needle = true) : certAny l2 needle = true := by
  simp only [certAny, List.any_eq_true] at hc ⊢
  obtain ⟨c, hcm, hcp⟩ := hc
  exact ⟨c, h.subset hcm, hcp⟩

theorem keywordAny_mono {l1 l2 : List String} (h : List.Sublist l1 l2) (ks : List String)
    (hk : (ks.any fun keyword => certAny l1 keyword) = true) :
    (ks.any fun keyword => certAny l2 keyword) = true := by
  simp only [List.any_eq_true] at hk ⊢
  obtain ⟨k, hkm, hkp⟩ := hk
  exact ⟨k, hkm, certAny_mono h k hkp⟩

theorem bor_imp {a b a2 b2 : Bool} (ha : a = true → a2 = true)
    (hb : b = true → b2 = true) : (a || b) = true → (a2 || b2) = true := by
  cases a <;> cases b <;> simp_all

theorem tierIte_mono {a b a2 b2 : Bool} {hi lo : Int} (h0 : 0 ≤ lo) (hl : lo ≤ hi)
    (ha : a = true → a2 = true) (hb : b = true → b2 = true) :
    (if a then hi else if b then lo else 0) ≤
      (if a2 then hi else if b2 then lo else 0) := by
  cases a <;> cases b <;> cases a2 <;> cases b2 <;> simp_all <;> omega

theorem singleIte_mono {a a2 : Bool} {k : Int} (h0 : 0 ≤ k)
    (ha : a = true → a2 = true) :
    (if a then k else 0) ≤ (if a2 then k else 0) := by
  cases a <;> cases a2 <;> simp_all

theorem utBonus_mono (j : String) {l1 l2 : List String} (h : List.Sublist l1 l2) :
    utBonus j l1 ≤ utBonus j l2 := by
  cases hf : (jsIncludes j "ut" || jsIncludes j "ultrasonic") with
  | false => simp [utBonus, hf]
  | true =>
    simp only [utBonus, hf, if_true]
    exact tierIte_mono (by norm_num) (by norm_num)
      (bor_imp (certAny_mono h _) (certAny_mono h _))
      (bor_imp (bor_imp (certAny_mono h _) (certAny_mono h _)) (certAny_mono h _))

theorem rtBonus_mono (j : String) {l1 l2 : List String} (h : List.Sublist l1 l2) :
    rtBonus j l1 ≤ rtBonus j l2 := by
  cases hf : (jsIncludes j "rt" || jsIncludes j "radiograph") with
  | false => simp [rtBonus, hf]
  | true =>
    simp only [rtBonus, hf, if_true]
    exact tierIte_mono (by norm_num) (by norm_num)
      (bor_imp (certAny_mono h _) (certAny_mono h _))
      (bor_imp (bor_imp (certAny_mono h _) (certAny_mono h _)) (certAny_mono h _))

theorem mtBonus_mono (j : String) {l1 l2 : List String} (h : List.Sublist l1 l2) :
    mtBonus j l1 ≤ mtBonus j l2 := by
  cases hf : (jsIncludes j "mt" || jsIncludes j "magnetic") with
  | false => simp [mtBonus, hf]
  | true =>
    simp only [mtBonus, hf, if_true]
    exact singleIte_mono (by norm_num) (certAny_mono h _)

theorem ptBonus_mono (j : String) {l1 l2 : List String} (h : List.Sublist l1 l2) :
    ptBonus j l1 ≤ ptBonus j l2 := by
  cases hf : (jsIncludes j "pt" || jsIncludes j "penetrant") with
  | false => simp [ptBonus, hf]
  | true =>
    simp only [ptBonus, hf, if_true]
    exact singleIte_mono (by norm_num) (certAny_mono h _)

theorem vtBonus_mono (j : String) {l1 l2 : List String} (h : List.Sublist l1 l2) :
    vtBonus j l1 ≤ vtBonus j l2 := by
  cases hf : (jsIncludes j "vt" || jsIncludes j "visual") with
  | false => simp [vtBonus, hf]
  | true =>
    simp only [vtBonus, hf, if_true]
    exact singleIte_mono (by norm_num) (certAny_mono h _)

theorem ndtBonus_mono {l1 l2 : List String} (h : List.Sublist l1 l2) :
    ndtBonus l1 ≤ ndtBonus l2 := by
  unfold ndtBonus
  exact singleIte_mono (by norm_num) (keywordAny_mono h _)

theorem safetyBonus_mono {l1 l2 : List String} (h : List.Sublist l1 l2) :
    safetyBonus l1 ≤ safetyBonus l2 := by
  unfold safetyBonus
  exact singleIte_mono (by norm_num) (keywordAny_mono h _)

theorem industryBonus_mono {l1 l2 : List String} (h : List.Sublist l1 l2) :
    industryBonus l1 ≤ industryBonus l2 := by
  unfold industryBonus
  exact singleIte_mono (by norm_num) (keywordAny_mono h _)

theorem breadthBonus_mono {l1 l2 : List String} (h : l1.length ≤ l2.length) :
    breadthBonus l1 ≤ breadthBonus l2 := by
  unfold breadthBonus; split_ifs <;> omega

/-- The deterministic scorer is monotone in the certification list:
removing certifications (a sublist) never increases the score. -/
theorem calculateMatchScore_mono (name status : String) {l1 l2 : List String}
    (h : List.Sublist l1 l2) (jobType : Option String) :
    calculateMatchScore ⟨name, status, l1⟩ jobType ≤
      calculateMatchScore ⟨name, status, l2⟩ jobType := by
  cases jobType with
  | none => simp [calculateMatchScore]
  | some jt =>
    by_cases hjt : jt = ""
    · simp [calculateMatchScore, hjt]
    · have h1 := utBonus_mono (jsToLower jt) h
      have h2 := rtBonus_mono (jsToLower jt) h
      have h3 := mtBonus_mono (jsToLower jt) h
      have h4 := ptBonus_mono (jsToLower jt) h
      have h5 := vtBonus_mono (jsToLower jt) h
      have h6 := ndtBonus_mono h
      have h7 := breadthBonus_mono h.length_le
      have h8 := safetyBonus_mono h
      have h9 := industryBonus_mono h
      simp only [calculateMatchScore, hjt, if_false]
      omega

/-- C9: for a technician holding a top-tier certification matching the
requested discipline, removing every discipline-matching certification
(all else equal) never raises the deterministic score — the comparison
technician with no matching certification scores no higher, through the
breadth/keyword bonuses and the clamp at 100. -/
theorem claim9 (jobType : String) (t : TechnicianFields)
    (htop : hasTopTierMatch jobType t.certifications = true) :
    calculateMatchScore
      { t with certifications :=
          t.certifications.filter fun c => !(certMatchesRequestedDiscipline jobType c) }
      (some jobType) ≤
    calculateMatchScore t (some jobType) := by
  obtain ⟨name, status, certs⟩ := t
  exact calculateMatchScore_mono name status (List.filter_sublist _) (some jobType)

/-- Witness for `claim9`: job type "UT", technician with `["UT Level II"]`
(a top-tier match) against the same technician with the matching
certification removed. -/
theorem claim9_witness :
    hasTopTierMatch "UT" (["UT Level II"] : List String) = true ∧
    calculateMatchScore
      { (⟨"Alice", "Active", ["UT Level II"]⟩ : TechnicianFields) with
        certifications :=
          (⟨"Alice", "Active", ["UT Level II"]⟩ : TechnicianFields).certifications.filter
            fun c => !(certMatchesRequestedDiscipline "UT" c) }
      (some "UT") ≤
    calculateMatchScore ⟨"Alice", "Active", ["UT Level II"]⟩ (some "UT") :=
  ⟨by decide, claim9 "UT" ⟨"Alice", "Active", ["UT Level II"]⟩ (by decide)⟩

/-! ## List helpers for the fallback ranking -/

theorem jsMapIndexedFrom_length {α β : Type} (f : Nat → α → β) (i : Nat) (l : List α) :
    (jsMapIndexedFrom f i l).length = l.length := by
  induction l generalizing i with
  | nil => rfl
  | cons x xs ih => simp [jsMapIndexedFrom, ih]

theorem jsMapIndexed_length {α β : Type} (f : Nat → α → β) (l : List α) :
    (jsMapIndexed f l).length = l.length := jsMapIndexedFrom_length f 0 l

theorem mem_jsMapIndexedFrom {α β : Type} {f : Nat → α → β} {i : Nat} {l : List α}
    {y : β} (hy : y ∈ jsMapIndexedFrom f i l) : ∃ j x, x ∈ l ∧ y = f j x := by
  induction l generalizing i with
  | nil => simp [jsMapIndexedFrom] at hy
  | cons x xs ih =>
    simp only [jsMapIndexedFrom, List.mem_cons] at hy
    rcases hy with h | h
    · exact ⟨i, x, List.mem_cons_self _ _, h⟩
    · obtain ⟨j, x2, hm, he⟩ := ih h
      exact ⟨j, x2, List.mem_cons_of_mem _ hm, he⟩

theorem mem_jsMapIndexed {α β : Type} {f : Nat → α → β} {l : List α} {y : β}
    (hy : y ∈ jsMapIndexed f l) : ∃ j x, x ∈ l ∧ y = f j x :=
  mem_jsMapIndexedFrom hy

theorem length_insertByScore (m : TeamMember) (l : List TeamMember) :
    (insertByScore m l).length = l.length + 1 := by
  induction l with
  | nil => rfl
  | cons x xs ih =>
    unfold insertByScore
    split_ifs <;> simp [ih]

theorem length_sortByScoreDesc (l : List TeamMember) :
    (sortByScoreDesc l).length = l.length := by
  induction l with
  | nil => rfl
  | cons x xs ih => simp [sortByScoreDesc, length_insertByScore, ih]

theorem mem_insertByScore {y m : TeamMember} {l : List TeamMember}
    (hy : y ∈ insertByScore m l) : y = m ∨ y ∈ l := by
  induction l with
  | nil => simpa [insertByScore] using hy
  | cons x xs ih =>
    by_cases hc : x.confidenceScore ≤ m.confidenceScore
    · simp only [insertByScore, if_pos hc, List.mem_cons] at hy ⊢
      tauto
    · simp only [insertByScore, if_neg hc, List.mem_cons] at hy
      rcases hy with h | h
      · exact Or.inr (by simp [h])
      · rcases ih h with h2 | h2
        · exact Or.inl h2
        · exact Or.inr (List.mem_cons_of_mem _ h2)

theorem mem_sortByScoreDesc {y : TeamMember} {l : List TeamMember}
    (hy : y ∈ sortByScoreDesc l) : y ∈ l := by
  induction l with
  | nil => simp [sortByScoreDesc] at hy
  | cons x xs ih =>
    rcases mem_insertByScore (by simpa [sortByScoreDesc] using hy) with h | h
    · simp [h]
    · exact List.mem_cons_of_mem _ (ih h)

theorem jsTeamSize_pos (t : Option Nat) : 1 ≤ jsTeamSize t := by
  cases t with
  | none => simp [jsTeamSize, jsOrNat]
  | some n =>
    by_cases hn : n = 0 <;> simp [jsTeamSize, jsOrNat, hn]
    omega

/-! ## Fallback ranking: score bounds and `matchScore` independence (claim C10) -/

theorem fallbackScoreRaw_bounds (jobType : String) (certs : List String)
    (availability : List (AirtableRecord AvailabilityFields)) :
    50 ≤ fallbackScoreRaw jobType certs availability ∧
      fallbackScoreRaw jobType certs availability ≤ 120 := by
  unfold fallbackScoreRaw; split_ifs <;> omega

theorem fallbackMember_confidence (jd : JobDetails) (t : Candidate) :
    50 ≤ (fallbackMember jd t).confidenceScore ∧
      (fallbackMember jd t).confidenceScore ≤ 100 := by
  have h := fallbackScoreRaw_bounds (jsToLower jd.jobType)
    t.technician.fields.certifications t.availability
  simp only [fallbackMember]
  omega

theorem fallbackMemberV2_confidence (jd : JobDetails) (i : Nat) (t : Candidate) :
    50 ≤ (fallbackMemberV2 jd i t).confidenceScore ∧
      (fallbackMemberV2 jd i t).confidenceScore ≤ 100 := by
  have h := fallbackScoreRaw_bounds (jsToLower jd.jobType)
    t.technician.fields.certifications t.availability
  simp only [fallbackMemberV2]
  omega

theorem fallbackAllMembers_confidence (jd : JobDetails) (cands : List Candidate)
    {m : TeamMember} (hm : m ∈ fallbackAllMembers jd cands) :
    50 ≤ m.confidenceScore ∧ m.confidenceScore ≤ 100 := by
  obtain ⟨c, _, rfl⟩ :=
    List.mem_map.mp (mem_sortByScoreDesc (by simpa [fallbackAllMembers] using hm))
  exact fallbackMember_confidence jd c

theorem fallbackRecommendedMembers_confidence (jd : JobDetails) (cands : List Candidate)
    {m : TeamMember} (hm : m ∈ fallbackRecommendedMembers jd cands) :
    50 ≤ m.confidenceScore ∧ m.confidenceScore ≤ 100 := by
  obtain ⟨j, x, hx, rfl⟩ := mem_jsMapIndexed (by simpa [fallbackRecommendedMembers] using hm)
  have hx2 : x ∈ fallbackAllMembers jd cands := (List.take_sublist _ _).subset hx
  simpa [recommendedRole] using fallbackAllMembers_confidence jd cands hx2

theorem fallbackAlternativeTeams_members (allMembers : List TeamMember) (ts : Nat)
    {t : AlternativeTeam} (ht : t ∈ fallbackAlternativeTeams allMembers ts)
    {m : TeamMember} (hm : m ∈ t.members) :
    ∃ x ∈ allMembers, m.confidenceScore = x.confidenceScore := by
  unfold fallbackAlternativeTeams at ht
  by_cases hlen : ts < allMembers.length
  · rw [if_pos hlen] at ht
    obtain ⟨i, _, hfi⟩ := List.mem_filterMap.mp ht
    dsimp only at hfi
    split_ifs at hfi with hg
    · injection hfi with hfi
      subst hfi
      obtain ⟨j, x, hx, rfl⟩ := mem_jsMapIndexed hm
      refine ⟨x, ((List.take_sublist _ _).trans (List.drop_sublist _ _)).subset hx, ?_⟩
      simp [altRole]
  · rw [if_neg hlen] at ht
    simp at ht

theorem fallbackMember_congr (jd : JobDetails) {c c2 : Candidate}
    (h : eraseMatchScore c = eraseMatchScore c2) :
    fallbackMember jd c = fallbackMember jd c2 := by
  have ht : c.technician = c2.technician := by
    simpa [eraseMatchScore] using congrArg Candidate.technician h
  have ha : c.availability = c2.availability := by
    simpa [eraseMatchScore] using congrArg Candidate.availability h
  simp [fallbackMember, ht, ha]

theorem fallbackMemberV2_congr (jd : JobDetails) (i : Nat) {c c2 : Candidate}
    (h : eraseMatchScore c = eraseMatchScore c2) :
    fallbackMemberV2 jd i c = fallbackMemberV2 jd i c2 := by
  have ht : c.technician = c2.technician := by
    simpa [eraseMatchScore] using congrArg Candidate.technician h
  have ha : c.availability = c2.availability := by
    simpa [eraseMatchScore] using congrArg Candidate.availability h
  simp [fallbackMemberV2, ht, ha]

theorem map_fallbackMember_eq (jd : JobDetails) {cands cands2 : List Candidate}
    (h : cands.map eraseMatchScore = cands2.map eraseMatchScore) :
    cands.map (fallbackMember jd) = cands2.map (fallbackMember jd) := by
  induction cands generalizing cands2 with
  | nil => cases cands2 with
    | nil => rfl
    | cons _ _ => simp at h
  | cons c cs ih =>
    cases cands2 with
    | nil => simp at h
    | cons c2 cs2 =>
      simp only [List.map_cons, List.cons.injEq] at h ⊢
      exact ⟨fallbackMember_congr jd h.1, ih h.2⟩

theorem jsMapIndexedFrom_v2_eq (jd : JobDetails) {cands cands2 : List Candidate}
    (h : cands.map eraseMatchScore = cands2.map eraseMatchScore) :
    ∀ i, jsMapIndexedFrom (fun index t => fallbackMemberV2 jd index t) i cands =
      jsMapIndexedFrom (fun index t => fallbackMemberV2 jd index t) i cands2 := by
  induction cands generalizing cands2 with
  | nil =>
    cases cands2 with
    | nil => intro i; rfl
    | cons _ _ => simp at h
  | cons c cs ih =>
    cases cands2 with
    | nil => simp at h
    | cons c2 cs2 =>
      intro i
      simp only [List.map_cons, List.cons.injEq] at h
      simp only [jsMapIndexedFrom, List.cons.injEq]
      exact ⟨fallbackMemberV2_congr jd i h.1, ih h.2 (i + 1)⟩

theorem fallbackRanking_matchScore_independent (jd : JobDetails)
    {cands cands2 : List Candidate}
    (h : cands.map eraseMatchScore = cands2.map eraseMatchScore) :
    fallbackRanking jd cands2 = fallbackRanking jd cands := by
  have hm : cands2.map (fallbackMember jd) = cands.map (fallbackMember jd) :=
    (map_fallbackMember_eq jd h).symm
  unfold fallbackRanking fallbackRecommendedMembers fallbackAllMembers
  rw [hm]

theorem fallbackRankingV2_matchScore_independent (jd : JobDetails)
    {cands cands2 : List Candidate}
    (h : cands.map eraseMatchScore = cands2.map eraseMatchScore) :
    fallbackRankingV2 jd cands2 = fallbackRankingV2 jd cands := by
  unfold fallbackRankingV2 jsMapIndexed
  rw [jsMapIndexedFrom_v2_eq jd h 0]

/-- Shape of a successful `fallbackRanking` result. -/
theorem fallbackRanking_ok_shape {jd : JobDetails} {cands : List Candidate}
    {fr : RankResult} (hok : fallbackRanking jd cands = Except.ok fr) :
    fr.recommendedTeam.members = fallbackRecommendedMembers jd cands ∧
    fr.recommendedTeam.size = (fallbackRecommendedMembers jd cands).length ∧
    fr.alternativeTeams =
      fallbackAlternativeTeams (fallbackAllMembers jd cands) (jsTeamSize jd.techsNeeded) := by
  simp only [fallbackRanking] at hok
  cases hts : fallbackTeamStrings (jsTeamSize jd.techsNeeded)
      (fallbackRecommendedMembers jd cands) with
  | error e => rw [hts] at hok; cases hok
  | ok p =>
    obtain ⟨td, cp⟩ := p
    rw [hts] at hok
    dsimp only at hok
    injection hok with hok
    subst hok
    exact ⟨rfl, rfl, rfl⟩

theorem fallbackRecommendedMembers_length (jd : JobDetails) (cands : List Candidate) :
    (fallbackRecommendedMembers jd cands).length =
      min (jsTeamSize jd.techsNeeded) cands.length := by
  simp [fallbackRecommendedMembers, jsMapIndexed_length, fallbackAllMembers,
    length_sortByScoreDesc, List.length_take]

/-- C10: every member produced by the deterministic fallback ranking (both
the team-based version — recommended team and alternative teams — and the
older flat version) has `confidenceScore ∈ [50, 100]`, and both versions
ignore the candidates' incoming `matchScore` field entirely: two candidate
lists equal up to `matchScore` give identical outputs. -/
theorem claim10 (jd : JobDetails) (cands cands2 : List Candidate) (fr : RankResult)
    (hok : fallbackRanking jd cands = Except.ok fr)
    (hsame : cands.map eraseMatchScore = cands2.map eraseMatchScore) :
    (∀ m ∈ fr.recommendedTeam.members,
        50 ≤ m.confidenceScore ∧ m.confidenceScore ≤ 100) ∧
    (∀ t ∈ fr.alternativeTeams, ∀ m ∈ t.members,
        50 ≤ m.confidenceScore ∧ m.confidenceScore ≤ 100) ∧
    fallbackRanking jd cands2 = fallbackRanking jd cands ∧
    (∀ m ∈ fallbackRankingV2 jd cands,
        50 ≤ m.confidenceScore ∧ m.confidenceScore ≤ 100) ∧
    fallbackRankingV2 jd cands2 = fallbackRankingV2 jd cands := by
  obtain ⟨hmem, _, halt⟩ := fallbackRanking_ok_shape hok
  refine ⟨?_, ?_, fallbackRanking_matchScore_independent jd hsame, ?_,
    fallbackRankingV2_matchScore_independent jd hsame⟩
  · intro m hm
    rw [hmem] at hm
    exact fallbackRecommendedMembers_confidence jd cands hm
  · intro t ht m hm
    rw [halt] at ht
    obtain ⟨x, hx, he⟩ := fallbackAlternativeTeams_members _ _ ht hm
    have := fallbackAllMembers_confidence jd cands hx
    omega
  · intro m hm
    obtain ⟨j, x, _, rfl⟩ :=
      mem_jsMapIndexed (mem_sortByScoreDesc (by simpa [fallbackRankingV2] using hm))
    exact fallbackMemberV2_confidence jd j x

/-- Witness for `claim10`: a concrete candidate whose `matchScore` is 7
versus 0; the fallback output is identical and within bounds. -/
theorem claim10_witness :
    fallbackRanking jdBlank [candBare] = Except.ok frBare ∧
    ([candBare].map eraseMatchScore = [candBareZero].map eraseMatchScore) ∧
    fallbackRanking jdBlank [candBareZero] = fallbackRanking jdBlank [candBare] :=
  ⟨by rfl, by rfl,
    (claim10 jdBlank [candBare] [candBareZero] frBare (by rfl) (by rfl)).2.2.1⟩

/-! ## `generateMatchAnalysis` behaviour (claims C1, C2, C3) -/

/-- When the adapter is unconfigured, or the candidate list is empty, or
the external call fails or returns an invalid structure, `rankTechnicians`
is the deterministic fallback. -/
theorem rank_det (b : Bool) (jd : JobDetails) (cands : List Candidate)
    (ai : AIRankOutcome)
    (h : b = false ∨ cands = [] ∨ ai = AIRankOutcome.failure ∨
      ai = AIRankOutcome.invalidStructure) :
    rankTechnicians b jd cands ai = fallbackRanking jd cands := by
  unfold rankTechnicians
  rcases h with rfl | rfl | rfl | rfl
  · simp
  · simp
  · by_cases hc : (!b || cands.length == 0) = true
    · rw [if_pos hc]
    · rw [if_neg hc]
  · by_cases hc : (!b || cands.length == 0) = true
    · rw [if_pos hc]
    · rw [if_neg hc]

/-- With no candidates, `generateMatchAnalysis` always returns the basic
fallback analysis: either the fallback ranking itself throws (the
`TypeError` on a multi-tech dynamics string) or the explicit
"No technicians available for analysis" throw fires; both land in the
outermost `catch`. -/
theorem gma_empty (b : Bool) (jd : JobDetails) (aiJob : AIJobOutcome)
    (aiRank : AIRankOutcome) :
    generateMatchAnalysis b jd [] aiJob aiRank = basicFallbackAnalysis := by
  have hrank : rankTechnicians b jd [] aiRank = fallbackRanking jd [] :=
    rank_det b jd [] aiRank (Or.inr (Or.inl rfl))
  have hrm : fallbackRecommendedMembers jd [] = [] := by
    have := fallbackRecommendedMembers_length jd []
    simpa using List.length_eq_zero.mp (by simpa using this)
  unfold generateMatchAnalysis generateMatchAnalysisE
  rw [hrank]
  simp only [fallbackRanking, hrm]
  by_cases h1 : 1 < jsTeamSize jd.techsNeeded
  · simp [fallbackTeamStrings, h1]
  · simp [fallbackTeamStrings, h1]

/-- On the deterministic path with a non-empty candidate list, the final
analysis carries exactly the fallback's recommended members, and
`fallbackUsed` is `!isConfigured` — computed before the `try`, independent
of whether the fallback was actually taken. -/
theorem gma_det (b : Bool) (jd : JobDetails) (cands : List Candidate)
    (aiJob : AIJobOutcome) (aiRank : AIRankOutcome)
    (hdet : b = false ∨ aiRank = AIRankOutcome.failure ∨
      aiRank = AIRankOutcome.invalidStructure)
    (hne : cands ≠ []) :
    (generateMatchAnalysis b jd cands aiJob aiRank).teamComposition.members =
      fallbackRecommendedMembers jd cands ∧
    (generateMatchAnalysis b jd cands aiJob aiRank).teamComposition.size =
      (fallbackRecommendedMembers jd cands).length ∧
    (generateMatchAnalysis b jd cands aiJob aiRank).fallbackUsed = !b := by
  have hrank : rankTechnicians b jd cands aiRank = fallbackRanking jd cands :=
    rank_det b jd cands aiRank (by tauto)
  have hpos : 0 < (fallbackRecommendedMembers jd cands).length := by
    rw [fallbackRecommendedMembers_length]
    have h1 := jsTeamSize_pos jd.techsNeeded
    have h2 : 0 < cands.length := List.length_pos.mpr hne
    omega
  obtain ⟨m0, ms, hms⟩ : ∃ m0 ms, fallbackRecommendedMembers jd cands = m0 :: ms := by
    cases hx : fallbackRecommendedMembers jd cands with
    | nil => rw [hx] at hpos; simp at hpos
    | cons a l => exact ⟨a, l, rfl⟩
  obtain ⟨⟨td, cp⟩, hts⟩ : ∃ p, fallbackTeamStrings (jsTeamSize jd.techsNeeded)
      (fallbackRecommendedMembers jd cands) = Except.ok p := by
    unfold fallbackTeamStrings
    by_cases h1 : 1 < jsTeamSize jd.techsNeeded
    · rw [if_pos h1, hms]; exact ⟨_, rfl⟩
    · rw [if_neg h1]; exact ⟨_, rfl⟩
  unfold generateMatchAnalysis generateMatchAnalysisE
  rw [hrank]
  simp only [fallbackRanking]
  rw [hts]
  dsimp only
  rw [hms]
  exact ⟨rfl, by simp [hms], rfl⟩

/-- C1: `generateMatchAnalysis` never propagates an exception — the
outermost catch maps every error of the body to the complete basic
fallback analysis — and under total upstream failure (directory degraded
to an empty candidate list, whatever the AI behaviours) it returns exactly
that value: an empty team of size 0, `complexity "moderate"`, and the
"Manual review required" recommendation, with `fallbackUsed = true`. -/
theorem claim1 (b : Bool) (jd : JobDetails) (cands : List Candidate)
    (aiJob : AIJobOutcome) (aiRank : AIRankOutcome) :
    (∀ e, generateMatchAnalysisE b jd cands aiJob aiRank = Except.error e →
      generateMatchAnalysis b jd cands aiJob aiRank = basicFallbackAnalysis) ∧
    (cands = [] →
      generateMatchAnalysis b jd cands aiJob aiRank = basicFallbackAnalysis ∧
      (generateMatchAnalysis b jd cands aiJob aiRank).teamComposition.size = 0 ∧
      (generateMatchAnalysis b jd cands aiJob aiRank).teamComposition.members = [] ∧
      (generateMatchAnalysis b jd cands aiJob aiRank).jobAnalysis.complexity = "moderate" ∧
      (generateMatchAnalysis b jd cands aiJob aiRank).jobAnalysis.recommendations =
        ["Manual review required"] ∧
      (generateMatchAnalysis b jd cands aiJob aiRank).fallbackUsed = true) := by
  constructor
  · intro e he
    unfold generateMatchAnalysis
    rw [he]
  · intro hc
    subst hc
    rw [gma_empty b jd aiJob aiRank]
    exact ⟨rfl, rfl, rfl, rfl, rfl, rfl⟩

/-- Witness for `claim1`: a concrete total-failure call (configured
service, empty candidate list, failing AI) whose body errors and whose
result is the basic fallback analysis. -/
theorem claim1_witness :
    generateMatchAnalysis true jdEx [] AIJobOutcome.failure AIRankOutcome.failure =
      basicFallbackAnalysis ∧
    (generateMatchAnalysis true jdEx [] AIJobOutcome.failure
      AIRankOutcome.failure).jobAnalysis.recommendations = ["Manual review required"] :=
  ⟨((claim1 true jdEx [] AIJobOutcome.failure AIRankOutcome.failure).2 rfl).1,
    ((claim1 true jdEx [] AIJobOutcome.failure AIRankOutcome.failure).2 rfl).2.2.2.2.1⟩

/-- C2, as frozen, is false: with the adapter configured and the external
call failing on a non-empty candidate list, the analysis is built from the
deterministic fallback ranking but `fallbackUsed` is `false`, because the
source computes `fallbackUsed = !this.isConfigured` before the `try` and
never updates it when `rankTechnicians` internally falls back. -/
theorem claim2_counterexample :
    (generateMatchAnalysis true jdEx [candAlice] AIJobOutcome.failure
      AIRankOutcome.failure).fallbackUsed = false := by rfl

/-- C2 (amended): whenever the adapter is configured but its call fails
(network error, non-JSON body, or invalid shape), the returned team is
exactly the deterministic fallback ranking's recommended team — but
`fallbackUsed` is `false`, not `true`: the flag records only
`!isConfigured`, set before the call, and signals configuration, not
whether the fallback path was taken. -/
theorem claim2_amended (jd : JobDetails) (cands : List Candidate)
    (aiJob : AIJobOutcome) (aiRank : AIRankOutcome)
    (hai : aiRank = AIRankOutcome.failure ∨ aiRank = AIRankOutcome.invalidStructure)
    (hne : cands ≠ []) :
    (generateMatchAnalysis true jd cands aiJob aiRank).teamComposition.members =
      fallbackRecommendedMembers jd cands ∧
    (generateMatchAnalysis true jd cands aiJob aiRank).fallbackUsed = false := by
  have h := gma_det true jd cands aiJob aiRank (Or.inr hai) hne
  exact ⟨h.1, by simpa using h.2.2⟩

/-- Witness for `claim2_amended`: one configured call with a failing AI on
one candidate. -/
theorem claim2_witness :
    (generateMatchAnalysis true jdEx [candAlice] AIJobOutcome.failure
      AIRankOutcome.failure).teamComposition.members =
        fallbackRecommendedMembers jdEx [candAlice] ∧
    (generateMatchAnalysis true jdEx [candAlice] AIJobOutcome.failure
      AIRankOutcome.failure).fallbackUsed = false :=
  claim2_amended jdEx [candAlice] AIJobOutcome.failure AIRankOutcome.failure
    (Or.inl rfl) (by simp)

/-- C3, as frozen, is false: on the AI path the reply's team is used
as-is (a size mismatch is only logged), so with one available candidate,
`techsNeeded` defaulted to 1, and a structurally valid reply carrying two
members, the returned team has 2 members while
`min(requestedTechsNeeded, availableCandidateCount) = 1`. -/
theorem claim3_counterexample :
    (generateMatchAnalysis true jdEx [candAlice] AIJobOutcome.failure
      (AIRankOutcome.success replyTwo)).teamComposition.members.length = 2 ∧
    min (jsTeamSize jdEx.techsNeeded) [candAlice].length = 1 := by decide

/-- C3 (amended): whenever the team comes from the deterministic path
(adapter unconfigured, empty candidate list, failed AI call, or invalid
reply structure), the returned team has exactly
`min(requestedTechsNeeded (default 1), availableCandidateCount)` members;
in particular with zero candidates the analysis still comes back, with
`teamComposition.size = 0` and the sentinel `topRecommendation`
("No match available", confidence 0).  On the AI path the size instead
follows the reply. -/
theorem claim3_amended (b : Bool) (jd : JobDetails) (cands : List Candidate)
    (aiJob : AIJobOutcome) (aiRank : AIRankOutcome)
    (hdet : b = false ∨ cands = [] ∨ aiRank = AIRankOutcome.failure ∨
      aiRank = AIRankOutcome.invalidStructure) :
    (generateMatchAnalysis b jd cands aiJob aiRank).teamComposition.members.length =
      min (jsTeamSize jd.techsNeeded) cands.length ∧
    (cands = [] →
      (generateMatchAnalysis b jd cands aiJob aiRank).teamComposition.size = 0 ∧
      (generateMatchAnalysis b jd cands aiJob
        aiRank).topRecommendation.technician.name = "No match available" ∧
      (generateMatchAnalysis b jd cands aiJob
        aiRank).topRecommendation.confidenceScore = 0) := by
  by_cases hc : cands = []
  · subst hc
    rw [gma_empty b jd aiJob aiRank]
    exact ⟨by simp [basicFallbackAnalysis], fun _ => ⟨rfl, rfl, rfl⟩⟩
  · have hdet2 : b = false ∨ aiRank = AIRankOutcome.failure ∨
        aiRank = AIRankOutcome.invalidStructure := by tauto
    have h := gma_det b jd cands aiJob aiRank hdet2 hc
    refine ⟨?_, fun hcc => absurd hcc hc⟩
    rw [h.1, fallbackRecommendedMembers_length]

/-- Witness for `claim3_amended`: an unconfigured service, two requested
technicians and three candidates give a team of exactly two members. -/
theorem claim3_witness :
    (generateMatchAnalysis false jdTwoTechs [candAlice, candBob, candCara]
      AIJobOutcome.failure AIRankOutcome.failure).teamComposition.members.length = 2 :=
  ((claim3_amended false jdTwoTechs [candAlice, candBob, candCara]
    AIJobOutcome.failure AIRankOutcome.failure (Or.inl rfl)).1).trans (by decide)

/-! ## Reconciliation of AI reply members (claim C6) -/

/-- C6, as frozen, is false: the source uses a single `find` over the
candidate list with a *disjunction* of the four criteria, so list order —
not the claimed criterion order — decides.  With candidates
`[Jan, Jane Doe]` and an AI member named exactly "Jane Doe", an exact
case-insensitive match with "Jane Doe" exists, yet reconciliation resolves
to "Jan" (because "Jane Doe" contains the earlier candidate's name as a
substring). -/
theorem claim6_counterexample :
    jsToLower techJane.name = jsToLower rawJane.name ∧
    (processMember jdEx [techJan, techJane] rawJane).technician = techJan ∧
    techJan.name ≠ rawJane.name := by decide

/-- C6 (amended): reconciliation scans the candidate list in order and
resolves to the *first* candidate satisfying *any* of: exact
case-insensitive name equality, id equality, or substring containment in
either direction.  Consequently, when "Jane Doe" is the first candidate
matched (in particular the sole candidate), an AI member named "jane doe"
or "Doe" resolves to that candidate and not to the Unknown sentinel. -/
theorem claim6_amended :
    (∀ (jd : JobDetails) (techs : List TechnicianData) (member : RawMember)
      (t : TechnicianData),
      techs.find? (memberMatches member) = some t →
      (processMember jd techs member).technician = t) ∧
    (processMember jdEx [techJane] rawJaneLower).technician = techJane ∧
    (processMember jdEx [techJane] rawDoe).technician = techJane := by
  refine ⟨?_, by decide, by decide⟩
  intro jd techs member t h
  simp only [processMember]
  rw [h]

/-- Witness for `claim6_amended`: the sole candidate "Jane Doe" is found
for the member "jane doe", and the resolution returns it. -/
theorem claim6_witness :
    List.find? (memberMatches rawJaneLower) [techJane] = some techJane ∧
    (processMember jdEx [techJane] rawJaneLower).technician = techJane :=
  ⟨by decide, claim6_amended.1 jdEx [techJane] rawJaneLower techJane (by decide)⟩

end JobPilot
